import Mathlib

/-!
Verification model of loggie's file-tailing Job (pkg/source/file/job.go).

Modelling conventions: Go strings are lists of characters, byte buffers are
lists of naturals, Go int64 is Int, time.Time is Option Nat (none is the Go
zero value, so IsZero = Option.isNone), an open *os.File handle is the
filesystem entry it refers to, and the filesystem seen by os.Open / os.Stat
is a map from path to entry. In-place mutation of the receiver becomes
explicit state passing: each operation returns the updated Job (paired with
an Option JobError where the Go method returns error).
-/

namespace LoggieFile

/-- Characters of a Go string. -/
abbrev Str := List Char

/-- Decimal digit characters, as produced by strconv's base-10 formatting. -/
def digitChar (d : Nat) : Char :=
  if d = 0 then '0' else if d = 1 then '1' else if d = 2 then '2'
  else if d = 3 then '3' else if d = 4 then '4' else if d = 5 then '5'
  else if d = 6 then '6' else if d = 7 then '7' else if d = 8 then '8'
  else if d = 9 then '9' else '*'

/-- Most-significant-first decimal digits of n; the fuel argument makes the
recursion structural and is always given at least n. -/
def decDigitsAux : Nat → Nat → Str
  | 0, _ => []
  | fuel + 1, n =>
    if n = 0 then [] else decDigitsAux fuel (n / 10) ++ [digitChar (n % 10)]

/-- strconv.AppendUint(buf, n, 10): the decimal representation of n. -/
def decimalDigits (n : Nat) : Str :=
  if n = 0 then ['0'] else decDigitsAux n n

/-- strconv.FormatInt(v, 10). -/
def intRepr (v : Int) : Str :=
  if v < 0 then '-' :: decimalDigits (-v).toNat else decimalDigits v.toNat

/-- JobStatus is an integer type in the source. -/
abbrev JobStatus := Int

def JobActive : JobStatus := 1

def JobDelete : JobStatus := 2

def JobStop : JobStatus := 3

def JobStopImmediately : JobStatus := 999

/-- The file metadata JobUid consumes: the syscall.Stat_t inode and device
numbers, together with the path and size that must not influence identity. -/
structure FileInfo where
  name : Str
  size : Nat
  ino : Nat
  dev : Nat
deriving DecidableEq

/-- One filesystem entry: identity (inode, device) and current byte content. -/
structure FsFile where
  ino : Nat
  dev : Nat
  content : List Nat
deriving DecidableEq

/-- The filesystem visible to a Job: what os.Open and os.Stat find at a path. -/
def FS := Str → Option FsFile

/-- The one configuration field this core reads. -/
structure SourceConfig where
  firstNBytesForIdentifier : Nat
deriving DecidableEq

/-- Data fields of the WatchTask collaborator a Job reads. The record sink,
event pool and hand-off channel are modelled by returning produced records
to the caller instead of pushing them. -/
structure WatchTask where
  pipelineName : Str
  sourceName : Str
  epoch : Nat
  config : SourceConfig
deriving DecidableEq

/-- The Job struct. aFileName and aStatus are the atomic.Value cells; the Go
zero status value is 0 (none of the named constants). -/
structure Job where
  uid : Str
  watchUid : Str
  watchUidLen : Nat
  index : Nat
  filename : Str
  aFileName : Str
  file : Option FsFile
  status : JobStatus
  aStatus : JobStatus
  endOffset : Int
  nextOffset : Int
  currentLineNumber : Int
  currentLines : Int
  eofCount : Nat
  lastActiveTime : Option Nat
  deleteTime : Option Nat
  renameTime : Option Nat
  identifier : Str
  task : WatchTask
deriving DecidableEq

/-- The immutable per-line State snapshot attached to every produced record. -/
structure State where
  Epoch : Nat
  PipelineName : Str
  SourceName : Str
  Offset : Int
  NextOffset : Int
  LineNumber : Int
  Filename : Str
  CollectTime : Nat
  ContentBytes : Int
  JobUid : Str
  JobIndex : Nat
  watchUid : Str
  EventUid : Str
deriving DecidableEq

/-- The error outcomes of Job operations (Go error values, by constructor). -/
inductive JobError where
  | openFailed (filename : Str)
  | identityChanged (filename uid newUid : Str)
  | statFailed (filename : Str)
  | fingerprintTooSmall (fileSize readSize : Nat)
  | fingerprintShortRead (readLen readSize : Nat)
deriving DecidableEq

/-- JobUid(fileInfo) body: inode, then a dash, then device, in decimal. -/
def JobUidStr (ino dev : Nat) : Str :=
  decimalDigits ino ++ '-' :: decimalDigits dev

/-- JobUid(fileInfo): "<inode>-<device>" from the stat metadata. -/
def JobUid (fileInfo : FileInfo) : Str :=
  JobUidStr fileInfo.ino fileInfo.dev

/-- WatchJobId: pipelineName, sourceName and jobUid joined with ":". -/
def WatchJobId (pipelineName sourceName jobUid : Str) : Str :=
  pipelineName ++ [':'] ++ sourceName ++ [':'] ++ jobUid

/-- The value Job.WatchUid() returns: the cached field if set, else built
from the task's pipeline name, source name and the Job uid. -/
def watchUidVal (j : Job) : Str :=
  if j.watchUid ≠ [] then j.watchUid
  else WatchJobId j.task.pipelineName j.task.sourceName j.uid

/-- Job.WatchUid() together with its caching effect on the receiver. -/
def WatchUidM (j : Job) : Str × Job :=
  if j.watchUid ≠ [] then (j.watchUid, j)
  else
    let wj := WatchJobId j.task.pipelineName j.task.sourceName j.uid
    (wj, { j with watchUid := wj, watchUidLen := wj.length })

def Uid (j : Job) : Str := j.uid

def Index (j : Job) : Nat := j.index

/-- Job.ChangeStatusTo: write the working copy and the shared cell. -/
def ChangeStatusTo (status : JobStatus) (j : Job) : Job :=
  { j with status := status, aStatus := status }

/-- Job.Delete: status to Delete (both copies), deleteTime to now. -/
def Delete (now : Nat) (j : Job) : Job :=
  { ChangeStatusTo JobDelete j with deleteTime := some now }

/-- Job.IsDelete: status is Delete or deleteTime is non-zero. -/
def IsDelete (j : Job) : Bool :=
  j.status == JobDelete || j.deleteTime.isSome

/-- Job.Stop: status to Stop (both copies). -/
def Stop (j : Job) : Job := ChangeStatusTo JobStop j

/-- Job.Release: close and clear the handle if one is held. -/
def Release (j : Job) : Job :=
  match j.file with
  | none => j
  | some _ => { j with file := none }

/-- Job.Sync: reconcile working copies from the shared cells. -/
def Sync (j : Job) : Job :=
  { j with status := j.aStatus, filename := j.aFileName }

/-- Job.RenameTo: update both filename copies, record renameTime. -/
def RenameTo (newFilename : Str) (now : Nat) (j : Job) : Job :=
  { j with filename := newFilename, aFileName := newFilename,
           renameTime := some now }

/-- Job.IsRename: whether a rename has ever happened. -/
def IsRename (j : Job) : Bool := j.renameTime.isSome

/-- Modelled from the spec: util.LineCountTo (pkg/util, not under src/)
counts line-delimiter occurrences from the file start to the offset. -/
def lineCountTo (offset : Int) (content : List Nat) : Int :=
  Int.ofNat ((content.take offset.toNat).countP (fun b => b == 10))

/-- The unconditional tail of Job.Active(): status to Active in both copies,
eofCount reset to 0, lastActiveTime updated to now. -/
def activateFinish (now : Nat) (j : Job) : Job :=
  { j with status := JobActive, aStatus := JobActive, eofCount := 0,
           lastActiveTime := some now }

/-- Job.Active(): if no handle is held, open the current path, re-derive the
identity from the fresh handle and compare with the stored uid, then seek to
nextOffset and recount the line number when it is still unseeded. Mirrors
the source faithfully, including the handle left open (file field still set)
in the identity-mismatch error branch. -/
def Active (fs : FS) (now : Nat) (j : Job) : Option JobError × Job :=
  match j.file with
  | some _ => (none, activateFinish now j)
  | none =>
    match fs j.filename with
    | none => (some (JobError.openFailed j.filename), j)
    | some f =>
      let j1 : Job := { j with file := some f }
      let newUid := JobUidStr f.ino f.dev
      if j1.uid ≠ newUid then
        (some (JobError.identityChanged j1.filename j1.uid newUid), j1)
      else if j1.nextOffset ≠ 0 ∧ j1.currentLineNumber = 0 then
        (none, activateFinish now
          { j1 with currentLineNumber := lineCountTo j1.nextOffset f.content })
      else (none, activateFinish now j1)

/-- Job.NextOffset(offset): advance the resume point only when positive. -/
def NextOffset (offset : Int) (j : Job) : Job :=
  if offset > 0 then { j with nextOffset := offset } else j

/-- One lowercase hex digit. -/
def hexDigitChar (d : Nat) : Char :=
  if d < 10 then digitChar d
  else if d = 10 then 'a' else if d = 11 then 'b' else if d = 12 then 'c'
  else if d = 13 then 'd' else if d = 14 then 'e'
  else if d = 15 then 'f' else '*'

/-- fmt.Sprintf("%x", bytes): two lowercase hex digits per byte. -/
def hexEncode (bytes : List Nat) : Str :=
  bytes.flatMap (fun b => [hexDigitChar (b / 16 % 16), hexDigitChar (b % 16)])

/-- Job.GenerateIdentifier(): compute and cache the content fingerprint at
most once. The digest function is a parameter standing for md5.Sum, which
always returns 16 bytes; reading the prefix of the opened file yields
min(readSize, size) bytes, so the short-read guard is kept from the source. -/
def GenerateIdentifier (hash : List Nat → List Nat) (fs : FS) (j : Job) :
    Option JobError × Job :=
  if j.identifier ≠ [] then (none, j)
  else
    match fs j.filename with
    | none => (some (JobError.statFailed j.filename), j)
    | some f =>
      let readSize := j.task.config.firstNBytesForIdentifier
      let fileSize := f.content.length
      if fileSize < readSize then
        (some (JobError.fingerprintTooSmall fileSize readSize), j)
      else
        let readBuffer := f.content.take readSize
        if readBuffer.length < readSize then
          (some (JobError.fingerprintShortRead readBuffer.length readSize), j)
        else (none, { j with identifier := hexEncode (hash readBuffer) })

/-- Job.IsSame(other): nil check, pointer shortcut (the ptrEq flag stands
for Go pointer equality of the two references), then watchUid comparison,
then identifier comparison. -/
def IsSame (j : Job) (other : Option Job) (ptrEq : Bool) : Bool :=
  match other with
  | none => false
  | some o =>
    if ptrEq then true
    else if watchUidVal j ≠ watchUidVal o then false
    else j.identifier == o.identifier

/-- Job.ProductEvent(endOffset, collectTime, body): advance the cursor by one
line and build the State snapshot and event uid. Returns the mutated Job, the
snapshot, and the copied body the pooled event would carry to the sink. -/
def ProductEvent (j : Job) (endOffset : Int) (collectTime : Nat)
    (body : List Nat) : Job × State × List Nat :=
  let nextOffset := endOffset + 1
  let contentBytes : Int := body.length
  let startOffset := nextOffset - contentBytes - 1
  let j1 : Job := { j with currentLineNumber := j.currentLineNumber + 1,
                           currentLines := j.currentLines + 1,
                           endOffset := endOffset, nextOffset := nextOffset }
  let wu := WatchUidM j1
  let watchUid := wu.1
  let j2 := wu.2
  let endOffsetStr := intRepr endOffset
  let eventUid := watchUid ++ '-' :: endOffsetStr
  let state : State :=
    { Epoch := j2.task.epoch, PipelineName := j2.task.pipelineName,
      SourceName := j2.task.sourceName, Offset := startOffset,
      NextOffset := nextOffset, LineNumber := j2.currentLineNumber,
      Filename := j2.filename, CollectTime := collectTime,
      ContentBytes := contentBytes + 1, JobUid := j2.uid,
      JobIndex := j2.index, watchUid := watchUid, EventUid := eventUid }
  (j2, state, body)

/-- newJobWithUid: a fresh Job with Go zero values in the untouched fields;
the global atomic index counter is passed in as idx. -/
def newJobWithUid (task : WatchTask) (filename : Str) (jobUid : Str)
    (idx : Nat) : Job :=
  { uid := jobUid, watchUid := [], watchUidLen := 0, index := idx,
    filename := filename, aFileName := filename, file := none,
    status := 0, aStatus := 0, endOffset := 0, nextOffset := 0,
    currentLineNumber := 0, currentLines := 0, eofCount := 0,
    lastActiveTime := none, deleteTime := none, renameTime := none,
    identifier := [], task := task }

/-- NewJob: derive the uid from the file metadata, then build the Job. -/
def NewJob (task : WatchTask) (filename : Str) (fileInfo : FileInfo)
    (idx : Nat) : Job :=
  newJobWithUid task filename (JobUid fileInfo) idx

/-- A later status-affecting public operation, used to state that deleteTime
stays set across any of them. -/
inductive LaterOp where
  | changeStatusTo (s : JobStatus)
  | stopOp
  | activate (fs : FS) (now : Nat)

def applyLaterOp (j : Job) : LaterOp → Job
  | LaterOp.changeStatusTo s => ChangeStatusTo s j
  | LaterOp.stopOp => Stop j
  | LaterOp.activate fs now => (Active fs now j).2

def applyLaterOps (j : Job) (ops : List LaterOp) : Job :=
  ops.foldl applyLaterOp j

/-- Sample task, jobs and filesystems used to witness the theorems below. -/
def taskA : WatchTask :=
  { pipelineName := ['p'], sourceName := ['s'], epoch := 3,
    config := { firstNBytesForIdentifier := 2 } }

def jobA : Job := newJobWithUid taskA ['f'] (JobUidStr 1 1) 1

def jobB : Job := { jobA with index := 2 }

def jobC3 : Job := { jobA with nextOffset := 100 }

def fileA : FsFile := { ino := 1, dev := 1, content := [1, 2, 3] }

def jobC8 : Job := { jobA with file := some fileA }

def fsA : FS := fun name => if name = ['f'] then some fileA else none

def fsC2 : FS := fun name =>
  if name = ['f'] then some { ino := 2, dev := 1, content := [] } else none

def hashA : List Nat → List Nat := fun _ => List.replicate 16 0

/-- The five bytes of the ASCII string "hello". -/
def helloBytes : List Nat := [104, 101, 108, 108, 111]

/-- Reading a decimal character back into its digit value. -/
def charToDigit (c : Char) : Nat := c.toNat - 48

/-- Reading a most-significant-first digit string back into a number. -/
def charsToNat (cs : Str) : Nat :=
  cs.foldl (fun acc c => acc * 10 + charToDigit c) 0

theorem charToDigit_digitChar (d : Nat) (h : d < 10) :
    charToDigit (digitChar d) = d := by
  interval_cases d <;> decide

theorem charsToNat_decDigitsAux (fuel : Nat) :
    ∀ n : Nat, n ≤ fuel → charsToNat (decDigitsAux fuel n) = n := by
  induction fuel with
  | zero =>
    intro n h
    interval_cases n
    decide
  | succ fuel ih =>
    intro n h
    rw [decDigitsAux]
    split
    · simp [charsToNat, *]
    · rename_i hn
      have hlt : n / 10 < n := Nat.div_lt_self (by omega) (by omega)
      unfold charsToNat
      rw [List.foldl_append]
      have ihd := ih (n / 10) (by omega)
      unfold charsToNat at ihd
      rw [ihd]
      simp only [List.foldl_cons, List.foldl_nil]
      rw [charToDigit_digitChar (n % 10) (Nat.mod_lt n (by omega))]
      omega

theorem charsToNat_decimalDigits (n : Nat) :
    charsToNat (decimalDigits n) = n := by
  rw [decimalDigits]
  split
  · simp [*]; decide
  · exact charsToNat_decDigitsAux n n (Nat.le_refl n)

theorem decimalDigits_injective {m n : Nat}
    (h : decimalDigits m = decimalDigits n) : m = n := by
  have := congrArg charsToNat h
  rwa [charsToNat_decimalDigits, charsToNat_decimalDigits] at this

theorem mem_decDigitsAux (fuel : Nat) :
    ∀ (n : Nat) (c : Char), c ∈ decDigitsAux fuel n →
      ∃ d, d < 10 ∧ c = digitChar d := by
  induction fuel with
  | zero =>
    intro n c h
    simp [decDigitsAux] at h
  | succ fuel ih =>
    intro n c h
    rw [decDigitsAux] at h
    split at h
    · simp at h
    · rw [List.mem_append] at h
      rcases h with h | h
      · exact ih _ _ h
      · simp at h
        exact ⟨n % 10, Nat.mod_lt n (by omega), h⟩

theorem mem_decimalDigits (n : Nat) (c : Char) (h : c ∈ decimalDigits n) :
    ∃ d, d < 10 ∧ c = digitChar d := by
  rw [decimalDigits] at h
  split at h
  · simp at h
    exact ⟨0, by omega, h⟩
  · exact mem_decDigitsAux n n c h

theorem digitChar_ne_dash (d : Nat) (h : d < 10) : digitChar d ≠ '-' := by
  interval_cases d <;> decide

theorem dash_not_mem_decimalDigits (n : Nat) : '-' ∉ decimalDigits n := by
  intro h
  obtain ⟨d, hd, hc⟩ := mem_decimalDigits n '-' h
  exact digitChar_ne_dash d hd hc.symm

/-- Splitting a one-separator concatenation is unambiguous when the left
parts do not contain the separator. -/
theorem sep_append_inj (c : Char) :
    ∀ (xs1 xs2 ys1 ys2 : Str), c ∉ xs1 → c ∉ xs2 →
      xs1 ++ c :: ys1 = xs2 ++ c :: ys2 → xs1 = xs2 ∧ ys1 = ys2 := by
  intro xs1
  induction xs1 with
  | nil =>
    intro xs2 ys1 ys2 h1 h2 heq
    cases xs2 with
    | nil => simpa using heq
    | cons b t =>
      simp only [List.nil_append, List.cons_append, List.cons.injEq] at heq
      exact absurd (heq.1 ▸ List.mem_cons_self b t) h2
  | cons a s ih =>
    intro xs2 ys1 ys2 h1 h2 heq
    cases xs2 with
    | nil =>
      simp only [List.nil_append, List.cons_append, List.cons.injEq] at heq
      exact absurd (heq.1 ▸ List.mem_cons_self a s) h1
    | cons b t =>
      simp only [List.cons_append, List.cons.injEq] at heq
      have hs := ih t ys1 ys2 (fun hm => h1 (List.mem_cons_of_mem a hm))
        (fun hm => h2 (List.mem_cons_of_mem b hm)) heq.2
      exact ⟨by rw [heq.1, hs.1], hs.2⟩

theorem watchUidM_snd_nextOffset (j : Job) :
    ((WatchUidM j).2).nextOffset = j.nextOffset := by
  rw [WatchUidM]
  split <;> rfl

theorem productEvent_job (j : Job) (e : Int) (t : Nat) (b : List Nat) :
    (ProductEvent j e t b).1 =
      (WatchUidM { j with currentLineNumber := j.currentLineNumber + 1,
                          currentLines := j.currentLines + 1,
                          endOffset := e, nextOffset := e + 1 }).2 := rfl

theorem productEvent_nextOffset (j : Job) (e : Int) (t : Nat) (b : List Nat) :
    (ProductEvent j e t b).1.nextOffset = e + 1 := by
  rw [productEvent_job, watchUidM_snd_nextOffset]

theorem active_nextOffset (fs : FS) (now : Nat) (j : Job) :
    ((Active fs now j).2).nextOffset = j.nextOffset := by
  unfold Active
  split
  · rfl
  · split
    · rfl
    · dsimp only
      split
      · rfl
      · split <;> rfl

theorem generateIdentifier_nextOffset (hash : List Nat → List Nat) (fs : FS)
    (j : Job) : ((GenerateIdentifier hash fs j).2).nextOffset = j.nextOffset := by
  unfold GenerateIdentifier
  split
  · rfl
  · split
    · rfl
    · dsimp only
      split
      · rfl
      · split <;> rfl

/-- C4: NextOffset(offset) leaves nextOffset unchanged when offset ≤ 0, and
when offset is positive and greater than the current nextOffset it sets the
field to exactly that value. -/
theorem C4_next_offset (j : Job) (offset : Int) :
    (offset ≤ 0 → (NextOffset offset j).nextOffset = j.nextOffset) ∧
    (0 < offset → j.nextOffset < offset →
      (NextOffset offset j).nextOffset = offset) := by
  constructor
  · intro h
    rw [NextOffset, if_neg (by omega)]
  · intro h _
    rw [NextOffset, if_pos h]

/-- Witness for C4 at offset -1 and offset 7 on a fresh Job. -/
theorem C4_witness :
    (NextOffset (-1) jobA).nextOffset = jobA.nextOffset ∧
    (NextOffset 7 jobA).nextOffset = 7 :=
  ⟨(C4_next_offset jobA (-1)).1 (by decide),
    (C4_next_offset jobA 7).2 (by decide) (by decide)⟩

/-- C3 counterexample: on a Job with nextOffset = 100, NextOffset with the
positive argument 5 lowers nextOffset to 5, and ProductEvent with
endOffset 10 lowers it to 11, so public operations can lower the field. -/
theorem C3_counterexample :
    (0 : Int) < 5 ∧ (NextOffset 5 jobC3).nextOffset < jobC3.nextOffset ∧
    (ProductEvent jobC3 10 0 helloBytes).1.nextOffset < jobC3.nextOffset := by
  decide

/-- C3 (amended): public operations never lower nextOffset provided each
positive NextOffset argument is at least the current value and each
ProductEvent endOffset is at least nextOffset - 1; NextOffset ignores
arguments ≤ 0, and all other operations leave nextOffset unchanged. -/
theorem C3_next_offset_monotonic (j : Job) (k : Int) :
    (k ≤ 0 → (NextOffset k j).nextOffset = j.nextOffset) ∧
    (j.nextOffset ≤ k → j.nextOffset ≤ (NextOffset k j).nextOffset) ∧
    (∀ e t b, j.nextOffset ≤ e + 1 →
      j.nextOffset ≤ (ProductEvent j e t b).1.nextOffset) ∧
    (∀ fs now, ((Active fs now j).2).nextOffset = j.nextOffset) ∧
    (∀ s, (ChangeStatusTo s j).nextOffset = j.nextOffset) ∧
    ((Stop j).nextOffset = j.nextOffset) ∧
    (∀ now, (Delete now j).nextOffset = j.nextOffset) ∧
    ((Release j).nextOffset = j.nextOffset) ∧
    ((Sync j).nextOffset = j.nextOffset) ∧
    (∀ nf now, (RenameTo nf now j).nextOffset = j.nextOffset) ∧
    (∀ hash fs, ((GenerateIdentifier hash fs j).2).nextOffset = j.nextOffset) := by
  refine ⟨?_, ?_, ?_, ?_, ?_, ?_, ?_, ?_, ?_, ?_, ?_⟩
  · intro h
    rw [NextOffset, if_neg (by omega)]
  · intro h
    rw [NextOffset]
    split
    · exact h
    · exact le_refl _
  · intro e t b h
    rw [productEvent_nextOffset]
    exact h
  · intro fs now
    exact active_nextOffset fs now j
  · intro s; rfl
  · rfl
  · intro now; rfl
  · unfold Release
    split <;> rfl
  · rfl
  · intro nf now; rfl
  · intro hash fs
    exact generateIdentifier_nextOffset hash fs j

/-- Witness for C3 (amended) on a fresh Job with argument 7. -/
theorem C3_witness :
    jobA.nextOffset ≤ (NextOffset 7 jobA).nextOffset ∧
    jobA.nextOffset ≤ (ProductEvent jobA 10 0 helloBytes).1.nextOffset :=
  ⟨(C3_next_offset_monotonic jobA 7).2.1 (by decide),
    (C3_next_offset_monotonic jobA 7).2.2.1 10 0 helloBytes (by decide)⟩

/-- C5 counterexample: with a colon inside the pipeline name, two distinct
(pipeline, source) pairs produce the same watch scope for the same uid. -/
theorem C5_counterexample :
    WatchJobId ['a', ':', 'b'] ['c'] ['u']
      = WatchJobId ['a'] ['b', ':', 'c'] ['u'] ∧
    ¬(['a', ':', 'b'] = ['a'] ∧ (['c'] : Str) = ['b', ':', 'c']) := by
  decide

/-- C5 (amended): for a fixed uid, WatchJobId is injective in the
(pipeline, source) pair provided the pipeline names contain no colon. -/
theorem C5_watch_scope_injective (p1 s1 p2 s2 u : Str)
    (hp1 : ':' ∉ p1) (hp2 : ':' ∉ p2)
    (h : WatchJobId p1 s1 u = WatchJobId p2 s2 u) : p1 = p2 ∧ s1 = s2 := by
  unfold WatchJobId at h
  simp only [List.append_assoc, List.singleton_append] at h
  obtain ⟨hp, hs⟩ := sep_append_inj ':' p1 p2 _ _ hp1 hp2 h
  exact ⟨hp, List.append_cancel_right hs⟩

/-- Witness for C5 (amended) on colon-free pipeline names. -/
theorem C5_witness : (['a'] : Str) = ['a'] ∧ (['b'] : Str) = ['b'] :=
  C5_watch_scope_injective ['a'] ['b'] ['a'] ['b'] ['u']
    (by decide) (by decide) rfl

/-- C9: JobUid is "<inode>-<device>" in decimal, depends only on the inode
and device fields of the metadata, and is injective in that pair. -/
theorem C9_job_uid (fi1 fi2 : FileInfo) :
    JobUid fi1 = decimalDigits fi1.ino ++ '-' :: decimalDigits fi1.dev ∧
    (fi1.ino = fi2.ino → fi1.dev = fi2.dev → JobUid fi1 = JobUid fi2) ∧
    (JobUid fi1 = JobUid fi2 → fi1.ino = fi2.ino ∧ fi1.dev = fi2.dev) := by
  refine ⟨rfl, ?_, ?_⟩
  · intro h1 h2
    unfold JobUid JobUidStr
    rw [h1, h2]
  · intro h
    unfold JobUid JobUidStr at h
    obtain ⟨hi, hd⟩ := sep_append_inj '-' _ _ _ _
      (dash_not_mem_decimalDigits fi1.ino)
      (dash_not_mem_decimalDigits fi2.ino) h
    exact ⟨decimalDigits_injective hi, decimalDigits_injective hd⟩

/-- Witness for C9: two entries differing in path and size but sharing
inode 5 and device 7 get the same uid. -/
theorem C9_witness :
    JobUid { name := ['a'], size := 1, ino := 5, dev := 7 }
      = JobUid { name := ['b'], size := 2, ino := 5, dev := 7 } :=
  (C9_job_uid { name := ['a'], size := 1, ino := 5, dev := 7 }
    { name := ['b'], size := 2, ino := 5, dev := 7 }).2.1 rfl rfl

/-- C1: from nextOffset = 0, ProductEvent(10, t, "hello") yields a record
with startOffset 5, ContentBytes 6 (content plus delimiter), leaves the Job
at nextOffset 11 and endOffset 10, bumps both line counters by one, and sets
the event id to the Job's watchUid followed by "-10". -/
theorem C1_product_event_hello (j : Job) (t : Nat) (h : j.nextOffset = 0) :
    (ProductEvent j 10 t helloBytes).2.1.Offset = 5 ∧
    (ProductEvent j 10 t helloBytes).2.1.ContentBytes = 6 ∧
    (ProductEvent j 10 t helloBytes).1.nextOffset = 11 ∧
    (ProductEvent j 10 t helloBytes).1.endOffset = 10 ∧
    (ProductEvent j 10 t helloBytes).1.currentLineNumber
      = j.currentLineNumber + 1 ∧
    (ProductEvent j 10 t helloBytes).1.currentLines = j.currentLines + 1 ∧
    (ProductEvent j 10 t helloBytes).2.1.EventUid
      = watchUidVal j ++ '-' :: ['1', '0'] := by
  have h10 : intRepr 10 = ['1', '0'] := by decide
  by_cases hw : j.watchUid = [] <;>
    simp [ProductEvent, WatchUidM, watchUidVal, hw, helloBytes, h10]

/-- Witness for C1 on a fresh Job, whose nextOffset is 0. -/
theorem C1_witness :
    (ProductEvent jobA 10 0 helloBytes).2.1.Offset = 5 ∧
    (ProductEvent jobA 10 0 helloBytes).2.1.ContentBytes = 6 ∧
    (ProductEvent jobA 10 0 helloBytes).1.nextOffset = 11 ∧
    (ProductEvent jobA 10 0 helloBytes).1.endOffset = 10 ∧
    (ProductEvent jobA 10 0 helloBytes).1.currentLineNumber
      = jobA.currentLineNumber + 1 ∧
    (ProductEvent jobA 10 0 helloBytes).1.currentLines
      = jobA.currentLines + 1 ∧
    (ProductEvent jobA 10 0 helloBytes).2.1.EventUid
      = watchUidVal jobA ++ '-' :: ['1', '0'] :=
  C1_product_event_hello jobA 0 (by decide)

/-- C2 (the code as written): when activation opens the path and the freshly
derived identity "2-1" differs from the stored uid "1-1", Active returns the
identity-changed error with the just-opened handle still held in the file
field — the handle is not closed before the error return. -/
theorem C2_identity_mismatch_leak :
    (Active fsC2 7 jobA).1 =
      some (JobError.identityChanged ['f'] (JobUidStr 1 1) (JobUidStr 2 1)) ∧
    ((Active fsC2 7 jobA).2.file).isSome = true := by
  decide

theorem hexEncode_ne_nil (l : List Nat) (h : l ≠ []) : hexEncode l ≠ [] := by
  cases l with
  | nil => exact absurd rfl h
  | cons a t => simp [hexEncode]

/-- C6: with the identifier unset, GenerateIdentifier errors whenever the
file is shorter than the configured prefix, succeeds and caches the non-empty
hex digest of the first prefix bytes otherwise, and once the identifier is
set every call is a success that recomputes nothing on any filesystem. -/
theorem C6_generate_identifier (hash : List Nat → List Nat) (fs : FS)
    (j : Job) (f : FsFile) :
    (j.identifier = [] → fs j.filename = some f →
      f.content.length < j.task.config.firstNBytesForIdentifier →
      GenerateIdentifier hash fs j =
        (some (JobError.fingerprintTooSmall f.content.length
          j.task.config.firstNBytesForIdentifier), j)) ∧
    (j.identifier = [] → fs j.filename = some f →
      j.task.config.firstNBytesForIdentifier ≤ f.content.length →
      GenerateIdentifier hash fs j =
        (none, { j with identifier := hexEncode (hash (f.content.take j.task.config.firstNBytesForIdentifier)) }) ∧
      ((∀ b, (hash b).length = 16) →
        hexEncode (hash
          (f.content.take j.task.config.firstNBytesForIdentifier)) ≠ [])) ∧
    (j.identifier ≠ [] → ∀ fs2, GenerateIdentifier hash fs2 j = (none, j)) := by
  refine ⟨?_, ?_, ?_⟩
  · intro hid hfs hlt
    unfold GenerateIdentifier
    rw [if_neg (by simp [hid]), hfs]
    dsimp only
    rw [if_pos hlt]
  · intro hid hfs hge
    have hstep : GenerateIdentifier hash fs j =
        (none, { j with identifier := hexEncode (hash (f.content.take j.task.config.firstNBytesForIdentifier)) }) := by
      unfold GenerateIdentifier
      rw [if_neg (by simp [hid]), hfs]
      dsimp only
      rw [if_neg (by omega), if_neg (by rw [List.length_take]; omega)]
    refine ⟨hstep, fun h16 => ?_⟩
    apply hexEncode_ne_nil
    intro hnil
    have hlen := h16 (f.content.take j.task.config.firstNBytesForIdentifier)
    rw [hnil] at hlen
    simp at hlen
  · intro hid fs2
    unfold GenerateIdentifier
    rw [if_pos hid]

/-- Witness for C6 on a 3-byte file with a 2-byte prefix configuration. -/
theorem C6_witness :
    (GenerateIdentifier hashA fsA jobA).1 = none ∧
    ((GenerateIdentifier hashA fsA jobA).2).identifier ≠ [] := by
  have h := (C6_generate_identifier hashA fsA jobA fileA).2.1
    (by decide) (by decide) (by decide)
  rw [h.1]
  exact ⟨rfl, h.2 (fun b => by simp [hashA])⟩

theorem deleteTime_applyLaterOp (j : Job) (op : LaterOp) :
    (applyLaterOp j op).deleteTime = j.deleteTime := by
  cases op with
  | changeStatusTo s => rfl
  | stopOp => rfl
  | activate fs now =>
    show ((Active fs now j).2).deleteTime = j.deleteTime
    unfold Active
    split
    · rfl
    · split
      · rfl
      · dsimp only
        split
        · rfl
        · split <;> rfl

theorem deleteTime_applyLaterOps (j : Job) (ops : List LaterOp) :
    (applyLaterOps j ops).deleteTime = j.deleteTime := by
  induction ops generalizing j with
  | nil => rfl
  | cons op ops ih =>
    show (applyLaterOps (applyLaterOp j op) ops).deleteTime = j.deleteTime
    rw [ih, deleteTime_applyLaterOp]

/-- C7: IsDelete is true exactly when the working status is Delete or
deleteTime is non-zero; Delete() makes it true, and it stays true after any
sequence of later ChangeStatusTo, Stop or Activate calls, because none of
them clears deleteTime. -/
theorem C7_is_delete (j : Job) :
    (IsDelete j = true ↔ (j.status = JobDelete ∨ j.deleteTime ≠ none)) ∧
    (∀ now, IsDelete (Delete now j) = true) ∧
    (∀ now ops, IsDelete (applyLaterOps (Delete now j) ops) = true) := by
  refine ⟨?_, ?_, ?_⟩
  · simp [IsDelete, Option.isSome_iff_ne_none]
  · intro now
    simp [IsDelete, Delete]
  · intro now ops
    have hd : (applyLaterOps (Delete now j) ops).deleteTime = some now := by
      rw [deleteTime_applyLaterOps]; rfl
    simp [IsDelete, hd]

/-- C8: whenever Activate succeeds the status is Active in the working copy
and the shared cell, eofCount is 0 and lastActiveTime is now; and with a
handle already held it succeeds on any filesystem, changing only those
activation fields — no open, seek or identity re-validation. -/
theorem C8_activate (fs : FS) (now : Nat) (j : Job) :
    (∀ j2, Active fs now j = (none, j2) →
      j2.status = JobActive ∧ j2.aStatus = JobActive ∧ j2.eofCount = 0 ∧
      j2.lastActiveTime = some now) ∧
    (j.file.isSome = true → ∀ fs2, Active fs2 now j =
      (none, { j with status := JobActive, aStatus := JobActive,
                      eofCount := 0, lastActiveTime := some now })) := by
  constructor
  · intro j2 heq
    unfold Active at heq
    split at heq
    · simp only [Prod.mk.injEq] at heq
      rw [← heq.2]
      exact ⟨rfl, rfl, rfl, rfl⟩
    · split at heq
      · simp at heq
      · dsimp only at heq
        split at heq
        · simp at heq
        · split at heq
          · simp only [Prod.mk.injEq] at heq
            rw [← heq.2]
            exact ⟨rfl, rfl, rfl, rfl⟩
          · simp only [Prod.mk.injEq] at heq
            rw [← heq.2]
            exact ⟨rfl, rfl, rfl, rfl⟩
  · intro hf fs2
    obtain ⟨f, hfile⟩ := Option.isSome_iff_exists.mp hf
    unfold Active activateFinish
    rw [hfile]

/-- Witness for C8 on a Job that already holds a handle. -/
theorem C8_witness :
    Active fsA 4 jobC8 = (none, { jobC8 with status := JobActive,
                                             aStatus := JobActive,
                                             eofCount := 0,
                                             lastActiveTime := some 4 }) :=
  (C8_activate fsA 4 jobC8).2 (by decide) fsA

/-- C10: for distinct Jobs whose WatchUid values agree and whose identifiers
are both still unset, IsSame is true — watch-scope equality alone decides. -/
theorem C10_is_same (j1 j2 : Job) (hne : j1 ≠ j2)
    (hw : watchUidVal j1 = watchUidVal j2)
    (h1 : j1.identifier = []) (h2 : j2.identifier = []) :
    IsSame j1 (some j2) false = true := by
  simp [IsSame, hw, h1, h2]

/-- Witness for C10: two Jobs differing only in index, both fingerprints
unset. -/
theorem C10_witness : IsSame jobA (some jobB) false = true :=
  C10_is_same jobA jobB (by decide) (by decide) rfl rfl

end LoggieFile
